import Mathlib

/-!
Verification of the W-TinyLFU memory-management container
(cachelib/allocator/MMWTinyLFU.h).

The container keeps cached entries in three intrusive LRU lists (Tiny,
Probation, Main), estimates access frequencies with a count-min sketch,
and arbitrates admission at the Tiny/Probation boundary.  We embed the
container shallowly: entries become records of their container-reserved
flag bits, lists become Lean lists of node identifiers (head of the list
is the LRU head), and every container operation becomes a pure function
on an explicit state.  32-bit time arithmetic is modelled on Nat with
explicit reduction modulo 2^32 where the source performs unsigned
arithmetic.
-/

namespace WTinyLFU

/-- Wraparound modulus of the 32-bit unsigned Time type used by the
entry hook (the spec fixes updateTime as a 32-bit unsigned count of
seconds). -/
def M32 : Nat := 4294967296

/-- Access mode passed to recordAccess (AccessMode in the source). -/
inductive AccessMode where
  | read
  | write
deriving DecidableEq, Repr

/-- Segment kinds (enum LruType of MMWTinyLFU; NumTypes is only an
array bound and is not modelled). -/
inductive LruType where
  | Main
  | Probation
  | Tiny
deriving DecidableEq, Repr

/-- Per-entry state visible to the container: the three container
reserved flag bits (kMMFlag0 = Tiny, kMMFlag1 = Accessed, kMMFlag2 =
Probation), the in-MM-container bit, the updateTime stored in the hook,
and the key hash.  Since the container only ever consumes the key
through hashNode, the field key directly holds the value of
hashNode(node). -/
structure Node where
  key : Nat
  tiny : Bool
  accessed : Bool
  probation : Bool
  inContainer : Bool
  updateTime : Nat
deriving DecidableEq, Repr

/-- Modelled from the spec: cachelib/common/CountMinSketch.h is not part
of the sources under verification; only its interface is used by
MMWTinyLFU.  Per the spec it is a four-row counting sketch whose
getCount returns the minimum of the row counters hit by the hash, whose
increment bumps each of those counters, and whose decay scales every
counter by 0.5 (integer right-shift).  We model the idealized sketch in
which distinct hashes occupy distinct counters (no row collisions):
one exact counter per hash value.  increment, getCount and the 0.5
decay then act on that counter exactly as the spec describes for the
collision-free case. -/
structure CountMinSketch where
  counts : Nat → Nat

namespace CountMinSketch

/-- Freshly allocated sketch: all counters zero. -/
def empty : CountMinSketch := ⟨fun _ => 0⟩

/-- Bump the counter(s) for the given hash. -/
def increment (s : CountMinSketch) (h : Nat) : CountMinSketch :=
  ⟨fun j => if j = h then s.counts j + 1 else s.counts j⟩

/-- Estimated count for the given hash. -/
def getCount (s : CountMinSketch) (h : Nat) : Nat :=
  s.counts h

/-- decayCountsBy(0.5): every counter is halved, with integer
truncation. -/
def decayHalf (s : CountMinSketch) : CountMinSketch :=
  ⟨fun j => s.counts j / 2⟩

end CountMinSketch

/-- Container configuration (struct MMWTinyLFU::Config).  The source
field protectionFreq_ is rendered protectionFreq (Lean identifiers do
not end in an underscore); lruRefreshRatio, a C++ double, is modelled as
an exact rational (its default is 0.0 and no claim exercises rounding
of the product age * ratio). -/
structure Config where
  defaultLruRefreshTime : Nat := 60
  lruRefreshTime : Nat := 60
  lruRefreshRatio : ℚ := 0
  updateOnWrite : Bool := false
  updateOnRead : Bool := true
  tryLockUpdate : Bool := false
  windowToCacheSizeRatio : Nat := 32
  tinySizePercent : Nat := 1
  mmReconfigureIntervalSecs : Nat := 0
  newcomerWinsOnTie : Bool := true
  protectionFreq : Nat := 3
  protectionSegmentSizePct : Nat := 80
deriving DecidableEq, Repr

/-- kLruRefreshTimeCap of the container. -/
def kLruRefreshTimeCap : Nat := 900

/-- kDefaultCapacity of the container. -/
def kDefaultCapacity : Nat := 100

/-- Container state (MMWTinyLFU::Container).  The three MultiDList
lists hold node identifiers, most recently used first, so linkAtHead is
list cons and the eviction candidate is the last element.  nodes maps a
node identifier to the entry state; entries live outside the container,
so the map is total.  capacity is the member capacity_ of the source.
-/
structure CState where
  config : Config
  nodes : Nat → Node
  tiny : List Nat
  probation : List Nat
  main : List Nat
  windowSize : Nat
  maxWindowSize : Nat
  capacity : Nat
  accessFreq : CountMinSketch
  lruRefreshTime : Nat
  nextReconfigureTime : Nat

/-- List of the given segment (lru_.getList(type)). -/
def segList (s : CState) (t : LruType) : List Nat :=
  match t with
  | LruType.Tiny => s.tiny
  | LruType.Probation => s.probation
  | LruType.Main => s.main

/-- Total number of entries across all segments (lru_.size()). -/
def lruSize (s : CState) : Nat :=
  s.tiny.length + s.probation.length + s.main.length

/-- getLruType(node): segment membership determined solely by the
Tiny/Probation flag bits; both clear means Main. -/
def getLruType (n : Node) : LruType :=
  if n.tiny then LruType.Tiny
  else if n.probation then LruType.Probation
  else LruType.Main

/-- Update a single entry's state in place. -/
def updNode (s : CState) (nid : Nat) (f : Node → Node) : CState :=
  { s with nodes := fun j => if j = nid then f (s.nodes j) else s.nodes j }

/-- admitToProbation(tinyNode, mainNode): the tiny node wins when its
estimated frequency beats the main node's, with newcomerWinsOnTie
deciding ties. -/
def admitToProbation (s : CState) (tinyNode mainNode : Node) : Bool :=
  let tinyFreq := s.accessFreq.getCount tinyNode.key
  let mainFreq := s.accessFreq.getCount mainNode.key
  if s.config.newcomerWinsOnTie then
    decide (tinyFreq ≥ mainFreq)
  else
    decide (tinyFreq > mainFreq)

/-- updateFrequenciesLocked(node): bump the sketch for the node's hash,
advance the window counter, and on hitting maxWindowSize halve the
window counter and decay the sketch. -/
def updateFrequenciesLocked (s : CState) (nid : Nat) : CState :=
  let f := s.accessFreq.increment (s.nodes nid).key
  let w := s.windowSize + 1
  if w = s.maxWindowSize then
    { s with accessFreq := f.decayHalf, windowSize := w / 2 }
  else
    { s with accessFreq := f, windowSize := w }

/-- maybeGrowAccessCountersLocked(): if the container has grown to at
least double the capacity the sketch was sized for, re-derive capacity_
and maxWindowSize_, reset the window counter and replace the sketch
with a fresh (all-zero) one.  The counter-width computation
nextPowTwo(e * maxWindowSize / kErrorThreshold) only sizes the
concrete sketch array and has no observable effect in the idealized
sketch model. -/
def maybeGrowAccessCountersLocked (s : CState) : CState :=
  let capacity := lruSize s
  if 2 * s.capacity > capacity then s
  else
    let cap := max capacity kDefaultCapacity
    { s with
      capacity := cap,
      windowSize := 0,
      maxWindowSize := cap * s.config.windowToCacheSizeRatio,
      accessFreq := CountMinSketch.empty }

/-- Fresh container (the Config/PtrCompressor constructor): empty lists,
sketch sized by maybeGrowAccessCountersLocked, refresh time taken from
the config, and the next reconfigure time either "never" (the maximal
32-bit Time) or now plus the interval.  nodes0 is the external pool of
entries. -/
def mkContainer (cfg : Config) (nodes0 : Nat → Node) (now : Nat) : CState :=
  let s : CState :=
    { config := cfg
      nodes := nodes0
      tiny := []
      probation := []
      main := []
      windowSize := 0
      maxWindowSize := 0
      capacity := 0
      accessFreq := CountMinSketch.empty
      lruRefreshTime := cfg.lruRefreshTime
      nextReconfigureTime :=
        if cfg.mmReconfigureIntervalSecs = 0 then M32 - 1
        else now + cfg.mmReconfigureIntervalSecs }
  maybeGrowAccessCountersLocked s

/-- maybePromoteTailLocked(): when both the Probation tail and the Tiny
tail exist, either swap them (when the Tiny tail is admitted) flipping
their Tiny/Probation bits, or rotate the Probation tail to the head of
Probation. -/
def maybePromoteTailLocked (s : CState) : CState :=
  match s.probation.getLast? with
  | none => s
  | some probationNode =>
    match s.tiny.getLast? with
    | none => s
    | some tinyNode =>
      if admitToProbation s (s.nodes tinyNode) (s.nodes probationNode) then
        -- tiny.remove(tinyNode); probation.linkAtHead(tinyNode)
        let s1 := { s with tiny := s.tiny.erase tinyNode,
                           probation := tinyNode :: s.probation }
        -- unmarkTiny(tinyNode); markTiny(probationNode)
        let s2 := updNode s1 tinyNode (fun n => { n with tiny := false })
        let s3 := updNode s2 probationNode (fun n => { n with tiny := true })
        -- probation.remove(probationNode); tiny.linkAtTail(probationNode)
        let s4 := { s3 with probation := s3.probation.erase probationNode,
                            tiny := s3.tiny ++ [probationNode] }
        -- unmarkProbation(probationNode); markProbation(tinyNode)
        let s5 := updNode s4 probationNode (fun n => { n with probation := false })
        updNode s5 tinyNode (fun n => { n with probation := true })
      else
        -- probation.moveToHead(probationNode)
        { s with probation := probationNode :: s.probation.erase probationNode }

/-- add(node): fail if the node is already in the container; otherwise
link it at the head of Tiny, mark it Tiny, bump its frequency, demote
Tiny's tail to the head of Probation when Tiny exceeds
tinySizePercent * lru_.size() / 100 (else run the tail-swap arbiter),
maybe grow the counters, and finally mark the node in-container with
updateTime = now and the accessed bit clear. -/
def add (s : CState) (nid : Nat) (now : Nat) : Bool × CState :=
  if (s.nodes nid).inContainer then (false, s)
  else
    let s1 := { s with tiny := nid :: s.tiny }
    let s2 := updNode s1 nid (fun n => { n with tiny := true })
    let s3 := updateFrequenciesLocked s2 nid
    let expectedSize := s3.config.tinySizePercent * lruSize s3 / 100
    let s4 :=
      if s3.tiny.length > expectedSize then
        match s3.tiny.getLast? with
        | none => s3
        | some tailNode =>
          let sa := { s3 with tiny := s3.tiny.erase tailNode,
                              probation := tailNode :: s3.probation }
          updNode sa tailNode
            (fun n => { n with tiny := false, probation := true })
      else
        maybePromoteTailLocked s3
    let s5 := maybeGrowAccessCountersLocked s4
    let s6 := updNode s5 nid
      (fun n => { n with inContainer := true, updateTime := now % M32,
                         accessed := false })
    (true, s6)

/-- removeLocked(node): unlink the node from the segment its flags
indicate, clear the segment flag, the accessed bit and the in-container
bit. -/
def removeLocked (s : CState) (nid : Nat) : CState :=
  let n := s.nodes nid
  let s1 :=
    if n.tiny then
      updNode { s with tiny := s.tiny.erase nid } nid
        (fun m => { m with tiny := false })
    else if n.probation then
      updNode { s with probation := s.probation.erase nid } nid
        (fun m => { m with probation := false })
    else
      { s with main := s.main.erase nid }
  updNode s1 nid (fun m => { m with accessed := false, inContainer := false })

/-- remove(node): fail when the node is not in the container, else
removeLocked. -/
def remove (s : CState) (nid : Nat) : Bool × CState :=
  if (s.nodes nid).inContainer then (true, removeLocked s nid)
  else (false, s)

/-- replace(oldNode, newNode): fail when the new node carries a
Tiny/Probation bit, when the old node is not in the container, or when
the new node already is.  Otherwise the new node takes the old node's
list position in the old node's segment, the matching segment bit is
moved, the in-container bits are flipped, and updateTime and the
accessed bit are copied from the old node. -/
def replace (s : CState) (oldId newId : Nat) : Bool × CState :=
  if (s.nodes newId).tiny ∨ (s.nodes newId).probation then (false, s)
  else if ¬ (s.nodes oldId).inContainer ∨ (s.nodes newId).inContainer then
    (false, s)
  else
    let oldTime := (s.nodes oldId).updateTime
    let sub : List Nat → List Nat :=
      fun l => l.map (fun x => if x = oldId then newId else x)
    let s1 :=
      if (s.nodes oldId).tiny then
        let sa := { s with tiny := sub s.tiny }
        let sb := updNode sa oldId (fun n => { n with tiny := false })
        updNode sb newId (fun n => { n with tiny := true })
      else if (s.nodes oldId).probation then
        let sa := { s with probation := sub s.probation }
        let sb := updNode sa oldId (fun n => { n with probation := false })
        updNode sb newId (fun n => { n with probation := true })
      else
        { s with main := sub s.main }
    let s2 := updNode s1 oldId (fun n => { n with inContainer := false })
    let s3 := updNode s2 newId (fun n => { n with inContainer := true })
    let s4 := updNode s3 newId (fun n => { n with updateTime := oldTime })
    let s5 :=
      if (s4.nodes oldId).accessed then
        updNode s4 newId (fun n => { n with accessed := true })
      else
        updNode s4 newId (fun n => { n with accessed := false })
    (true, s5)

/-- Oldest element age used by reconfigure: now minus the Main tail's
updateTime in wrapping 32-bit arithmetic, 0 when Main is empty
(getEvictionAgeStatLocked). -/
def oldestElementAge (s : CState) (now : Nat) : Nat :=
  match s.main.getLast? with
  | none => 0
  | some m => (now + M32 - (s.nodes m).updateTime % M32) % M32

/-- reconfigureLocked(now): no-op before nextReconfigureTime; otherwise
push nextReconfigureTime forward and recompute the refresh time as
min(max(defaultLruRefreshTime, oldestElementAge * lruRefreshRatio),
kLruRefreshTimeCap). -/
def reconfigureLocked (s : CState) (now : Nat) : CState :=
  if now < s.nextReconfigureTime then s
  else
    let age := oldestElementAge s now
    let scaled := (⌊(age : ℚ) * s.config.lruRefreshRatio⌋).toNat % M32
    let r := min (max s.config.defaultLruRefreshTime scaled) kLruRefreshTimeCap
    { s with nextReconfigureTime := now + s.config.mmReconfigureIntervalSecs,
             lruRefreshTime := r }

/-- The section of recordAccess executed under the container lock after
reconfigureLocked has run: re-check that the node is still in the
container, move it to the head of its segment, promote it from
Probation to Main when its estimated frequency exceeds protectionFreq
(then demote Main's tail to Probation's tail if Main exceeds
protectionSegmentSizePct of Main+Probation), stamp updateTime = now and
bump the frequency. -/
def recordAccessLocked (s2 : CState) (nid : Nat) (now : Nat) : Bool × CState :=
  if ¬ (s2.nodes nid).inContainer then (false, s2)
  else
    -- lru_.getList(getLruType(node)).moveToHead(node)
    let s3 :=
      match getLruType (s2.nodes nid) with
      | LruType.Tiny => { s2 with tiny := nid :: s2.tiny.erase nid }
      | LruType.Probation =>
          { s2 with probation := nid :: s2.probation.erase nid }
      | LruType.Main => { s2 with main := nid :: s2.main.erase nid }
    let s4 :=
      if getLruType (s2.nodes nid) = LruType.Probation then
        if s3.accessFreq.getCount (s3.nodes nid).key >
            s3.config.protectionFreq then
          let sa := { s3 with probation := s3.probation.erase nid,
                              main := nid :: s3.main }
          let sb := updNode sa nid (fun n => { n with probation := false })
          let totalMainSize := sb.probation.length + sb.main.length
          let expectedMainSize :=
            sb.config.protectionSegmentSizePct * totalMainSize / 100
          if sb.main.length > expectedMainSize then
            match sb.main.getLast? with
            | none => sb
            | some mainTail =>
              let sc := { sb with main := sb.main.erase mainTail,
                                  probation := sb.probation ++ [mainTail] }
              updNode sc mainTail (fun n => { n with probation := true })
          else sb
        else s3
      else s3
    let s5 := updNode s4 nid (fun n => { n with updateTime := now % M32 })
    (true, updateFrequenciesLocked s5 nid)

/-- recordAccess(node, mode): false when the config disables the mode.
Otherwise, when the node is in the container and either the refresh
window has elapsed (32-bit comparison curr >= updateTime +
lruRefreshTime) or the accessed bit is clear: set the accessed bit,
acquire the lock (try-lock when configured; lockAvail says whether a
try-lock would succeed), run reconfigureLocked and then the
under-lock body recordAccessLocked. -/
def recordAccess (s : CState) (nid : Nat) (mode : AccessMode) (now : Nat)
    (lockAvail : Bool) : Bool × CState :=
  if (mode = AccessMode.write ∧ ¬ s.config.updateOnWrite) ∨
     (mode = AccessMode.read ∧ ¬ s.config.updateOnRead) then
    (false, s)
  else
    if (s.nodes nid).inContainer ∧
       (now ≥ ((s.nodes nid).updateTime + s.lruRefreshTime) % M32 ∨
        ¬ (s.nodes nid).accessed) then
      let s1 :=
        if ¬ (s.nodes nid).accessed then
          updNode s nid (fun n => { n with accessed := true })
        else s
      if s1.config.tryLockUpdate ∧ ¬ lockAvail then (false, s1)
      else recordAccessLocked (reconfigureLocked s1 now) nid now
    else (false, s)

/-- Pool of external entries used by the concrete scenarios: entry k
has key hash k, all flags clear, not in any container. -/
def defaultNodes : Nat → Node :=
  fun k => { key := k, tiny := false, accessed := false, probation := false,
             inContainer := false, updateTime := 0 }

/-- Sub-iterator selection of LockedIterator::getIter(), the merged
eviction cursor.  The three arguments are the current candidates of the
reverse Tiny, Probation and Main sub-iterators (none when exhausted);
the result says which sub-iterator the cursor dereferences. -/
def getIter (s : CState) (t p m : Option Nat) : LruType :=
  match t, p, m with
  | _, none, none => LruType.Tiny
  | none, none, _ => LruType.Main
  | none, some _, none => LruType.Probation
  | some _, none, some _ => LruType.Tiny
  | none, some _, some _ => LruType.Probation
  | some tn, some pn, _ =>
      if admitToProbation s (s.nodes tn) (s.nodes pn) then LruType.Probation
      else LruType.Tiny

/-- The Main-cap bound enforced by recordAccess: |Main| is at most
protectionSegmentSizePct * (|Main| + |Probation|) / 100. -/
def mainBound (s : CState) : Prop :=
  s.main.length ≤
    s.config.protectionSegmentSizePct *
      (s.main.length + s.probation.length) / 100

instance (s : CState) : Decidable (mainBound s) := by
  unfold mainBound; infer_instance

/-- Insert entries 0, 1, ..., n-1 in order, all at time 0 (the concrete
scenario driver for the Tiny-cap claims). -/
def addMany (s : CState) : Nat → CState
  | 0 => s
  | n + 1 => (add (addMany s n) n 0).2

/-- Scenario container for the Tiny-cap claim: tinySizePercent = 10,
every other option at its default. -/
def c1Init : CState := mkContainer { tinySizePercent := 10 } defaultNodes 0

/-- Scenario container for the frequency-decay claim:
windowToCacheSizeRatio = 2, so maxWindowSize = 100 * 2 = 200. -/
def c4Init : CState := mkContainer { windowToCacheSizeRatio := 2 } defaultNodes 0

/-- Perform n frequency-generating operations, one on each of the
entries 0, 1, ..., n-1 (entry k has key hash k). -/
def freqMany (s : CState) : Nat → CState
  | 0 => s
  | n + 1 => updateFrequenciesLocked (freqMany s n) n

/-- recordAccess in read mode at time 0 with the lock available,
keeping only the post state (scenario shorthand). -/
def raT (s : CState) (i : Nat) : CState :=
  (recordAccess s i AccessMode.read 0 true).2

/-- Configuration of the Main-cap scenario: every add lands in
Probation (tinySizePercent = 1), a second access promotes to Main
(protectionFreq = 1), and the refresh window never blocks an access
(lruRefreshTime = 0). -/
def c3Cfg : Config :=
  { tinySizePercent := 1, protectionFreq := 1, defaultLruRefreshTime := 0,
    lruRefreshTime := 0 }

/-- A container state reached from empty by public operations only:
add entries 0..4 (all land in Probation), access 0 and 1 twice each
(promoting both to Main), then remove 2, 3 and 4.  The result has
Main = [1, 0] and Probation = [], so |Main| = 2 exceeds
protectionSegmentSizePct * (2 + 0) / 100 = 1. -/
def c3Pre : CState :=
  let s5 := addMany (mkContainer c3Cfg defaultNodes 0) 5
  let s9 := raT (raT (raT (raT s5 0) 0) 1) 1
  (remove (remove (remove s9 2).2 3).2 4).2

/-- Try-lock scenario state: a container with tryLockUpdate enabled
holding the single entry 0 (in Probation, accessed bit clear). -/
def c2Pre : CState :=
  (add (mkContainer { tryLockUpdate := true } defaultNodes 0) 0 0).2

/-- Configuration of the refresh-wraparound scenario: a large (but
legal, below 2^32) refresh time. -/
def c7Cfg : Config :=
  { defaultLruRefreshTime := 3221225472, lruRefreshTime := 3221225472 }

/-- Refresh-wraparound scenario state: entry 0 added at time 3221225472
and accessed once at that same time, so its accessed bit is set and its
updateTime is 3221225472 while lruRefreshTime is 3221225472: the sum
6442450944 overflows 32 bits. -/
def c7Pre : CState :=
  (recordAccess (add (mkContainer c7Cfg defaultNodes 0) 0 3221225472).2 0
    AccessMode.read 3221225472 true).2

/-- Refresh-window witness state: default configuration (lruRefreshTime
60), entry 0 added at time 10 and accessed at time 10, so its accessed
bit is set and a further access before time 70 is blocked. -/
def c7SmallPre : CState :=
  (recordAccess (add (mkContainer {} defaultNodes 0) 0 10).2 0
    AccessMode.read 10 true).2

/-- Entry pool for the replace witness: entry 9 carries a stale
accessed bit and updateTime, showing that replace copies the old
node's values. -/
def replaceNodes : Nat → Node :=
  fun k =>
    if k = 9 then
      { key := 9, tiny := false, accessed := false, probation := false,
        inContainer := false, updateTime := 77 }
    else defaultNodes k

/-- Replace witness state: entries 0, 1, 2 added (all in Probation),
entry 1 accessed once.  Entry 9 is outside the container with both
segment bits clear, so replace of 1 by 9 succeeds. -/
def c8Pre : CState :=
  raT (addMany (mkContainer c3Cfg replaceNodes 0) 3) 1

end WTinyLFU

namespace WTinyLFU

/-! Field-preservation lemmas: which parts of the state each operation
leaves untouched.  They let the claim proofs step through the
operation pipeline of the source without case-splitting on conditions
that only affect other fields. -/

theorem updNode_tiny (s : CState) (i : Nat) (f : Node → Node) :
    (updNode s i f).tiny = s.tiny := rfl

theorem updNode_probation (s : CState) (i : Nat) (f : Node → Node) :
    (updNode s i f).probation = s.probation := rfl

theorem updNode_main (s : CState) (i : Nat) (f : Node → Node) :
    (updNode s i f).main = s.main := rfl

theorem updNode_config (s : CState) (i : Nat) (f : Node → Node) :
    (updNode s i f).config = s.config := rfl

theorem updNode_capacity (s : CState) (i : Nat) (f : Node → Node) :
    (updNode s i f).capacity = s.capacity := rfl

theorem updNode_windowSize (s : CState) (i : Nat) (f : Node → Node) :
    (updNode s i f).windowSize = s.windowSize := rfl

theorem updNode_maxWindowSize (s : CState) (i : Nat) (f : Node → Node) :
    (updNode s i f).maxWindowSize = s.maxWindowSize := rfl

theorem updNode_accessFreq (s : CState) (i : Nat) (f : Node → Node) :
    (updNode s i f).accessFreq = s.accessFreq := rfl

theorem updNode_lruRefreshTime (s : CState) (i : Nat) (f : Node → Node) :
    (updNode s i f).lruRefreshTime = s.lruRefreshTime := rfl

theorem updNode_nextReconfigureTime (s : CState) (i : Nat) (f : Node → Node) :
    (updNode s i f).nextReconfigureTime = s.nextReconfigureTime := rfl

theorem updNode_nodes_self (s : CState) (i : Nat) (f : Node → Node) :
    (updNode s i f).nodes i = f (s.nodes i) := by
  simp [updNode]

theorem updNode_nodes_ne (s : CState) (i : Nat) (f : Node → Node) (j : Nat)
    (h : j ≠ i) : (updNode s i f).nodes j = s.nodes j := by
  simp [updNode, h]

theorem uFL_tiny (s : CState) (nid : Nat) :
    (updateFrequenciesLocked s nid).tiny = s.tiny := by
  simp only [updateFrequenciesLocked]; split <;> rfl

theorem uFL_probation (s : CState) (nid : Nat) :
    (updateFrequenciesLocked s nid).probation = s.probation := by
  simp only [updateFrequenciesLocked]; split <;> rfl

theorem uFL_main (s : CState) (nid : Nat) :
    (updateFrequenciesLocked s nid).main = s.main := by
  simp only [updateFrequenciesLocked]; split <;> rfl

theorem uFL_nodes (s : CState) (nid : Nat) :
    (updateFrequenciesLocked s nid).nodes = s.nodes := by
  simp only [updateFrequenciesLocked]; split <;> rfl

theorem uFL_config (s : CState) (nid : Nat) :
    (updateFrequenciesLocked s nid).config = s.config := by
  simp only [updateFrequenciesLocked]; split <;> rfl

theorem uFL_capacity (s : CState) (nid : Nat) :
    (updateFrequenciesLocked s nid).capacity = s.capacity := by
  simp only [updateFrequenciesLocked]; split <;> rfl

theorem uFL_lruRefreshTime (s : CState) (nid : Nat) :
    (updateFrequenciesLocked s nid).lruRefreshTime = s.lruRefreshTime := by
  simp only [updateFrequenciesLocked]; split <;> rfl

theorem uFL_nextReconfigureTime (s : CState) (nid : Nat) :
    (updateFrequenciesLocked s nid).nextReconfigureTime = s.nextReconfigureTime := by
  simp only [updateFrequenciesLocked]; split <;> rfl

theorem mGAC_tiny (s : CState) :
    (maybeGrowAccessCountersLocked s).tiny = s.tiny := by
  simp only [maybeGrowAccessCountersLocked]; split <;> rfl

theorem mGAC_probation (s : CState) :
    (maybeGrowAccessCountersLocked s).probation = s.probation := by
  simp only [maybeGrowAccessCountersLocked]; split <;> rfl

theorem mGAC_main (s : CState) :
    (maybeGrowAccessCountersLocked s).main = s.main := by
  simp only [maybeGrowAccessCountersLocked]; split <;> rfl

theorem mGAC_nodes (s : CState) :
    (maybeGrowAccessCountersLocked s).nodes = s.nodes := by
  simp only [maybeGrowAccessCountersLocked]; split <;> rfl

theorem mGAC_config (s : CState) :
    (maybeGrowAccessCountersLocked s).config = s.config := by
  simp only [maybeGrowAccessCountersLocked]; split <;> rfl

theorem mGAC_lruRefreshTime (s : CState) :
    (maybeGrowAccessCountersLocked s).lruRefreshTime = s.lruRefreshTime := by
  simp only [maybeGrowAccessCountersLocked]; split <;> rfl

theorem reconf_tiny (s : CState) (now : Nat) :
    (reconfigureLocked s now).tiny = s.tiny := by
  simp only [reconfigureLocked]; split <;> rfl

theorem reconf_probation (s : CState) (now : Nat) :
    (reconfigureLocked s now).probation = s.probation := by
  simp only [reconfigureLocked]; split <;> rfl

theorem reconf_main (s : CState) (now : Nat) :
    (reconfigureLocked s now).main = s.main := by
  simp only [reconfigureLocked]; split <;> rfl

theorem reconf_nodes (s : CState) (now : Nat) :
    (reconfigureLocked s now).nodes = s.nodes := by
  simp only [reconfigureLocked]; split <;> rfl

theorem reconf_config (s : CState) (now : Nat) :
    (reconfigureLocked s now).config = s.config := by
  simp only [reconfigureLocked]; split <;> rfl

theorem reconf_accessFreq (s : CState) (now : Nat) :
    (reconfigureLocked s now).accessFreq = s.accessFreq := by
  simp only [reconfigureLocked]; split <;> rfl

theorem reconf_windowSize (s : CState) (now : Nat) :
    (reconfigureLocked s now).windowSize = s.windowSize := by
  simp only [reconfigureLocked]; split <;> rfl

theorem mkContainer_nodes (cfg : Config) (f : Nat → Node) (t : Nat) :
    (mkContainer cfg f t).nodes = f := by
  unfold mkContainer; rw [mGAC_nodes]

theorem mkContainer_tiny (cfg : Config) (f : Nat → Node) (t : Nat) :
    (mkContainer cfg f t).tiny = [] := by
  unfold mkContainer; rw [mGAC_tiny]

theorem mkContainer_probation (cfg : Config) (f : Nat → Node) (t : Nat) :
    (mkContainer cfg f t).probation = [] := by
  unfold mkContainer; rw [mGAC_probation]

theorem mkContainer_main (cfg : Config) (f : Nat → Node) (t : Nat) :
    (mkContainer cfg f t).main = [] := by
  unfold mkContainer; rw [mGAC_main]

theorem mkContainer_config (cfg : Config) (f : Nat → Node) (t : Nat) :
    (mkContainer cfg f t).config = cfg := by
  unfold mkContainer; rw [mGAC_config]

theorem mkContainer_capacity (cfg : Config) (f : Nat → Node) (t : Nat) :
    (mkContainer cfg f t).capacity = 100 := by
  unfold mkContainer maybeGrowAccessCountersLocked
  simp [lruSize, kDefaultCapacity]

/-- C5: admitToProbation(tinyEntry, mainEntry) returns true exactly
when the tiny entry's estimated frequency is at least the main entry's
if newcomerWinsOnTie is set, and exactly when it is strictly greater
otherwise, for every sketch state and every pair of entries. -/
theorem C5_admitToProbation_iff (s : CState) (tinyNode mainNode : Node) :
    admitToProbation s tinyNode mainNode = true ↔
      (if s.config.newcomerWinsOnTie = true then
        s.accessFreq.getCount tinyNode.key ≥ s.accessFreq.getCount mainNode.key
      else
        s.accessFreq.getCount tinyNode.key > s.accessFreq.getCount mainNode.key) := by
  unfold admitToProbation
  by_cases h : s.config.newcomerWinsOnTie <;> simp [h]

/-- C6: the merged eviction cursor never dereferences the Main
sub-iterator while Tiny or Probation still has a candidate (Main is
selected only when both are exhausted), and when both Tiny and
Probation are live it selects Tiny exactly when admitToProbation on
the two tail candidates is false, Probation otherwise. -/
theorem C6_getIter_priority (s : CState) (t p m : Option Nat) :
    (getIter s t p m = LruType.Main → t = none ∧ p = none) ∧
    (∀ tn pn, t = some tn → p = some pn →
      getIter s t p m =
        if admitToProbation s (s.nodes tn) (s.nodes pn) = true then
          LruType.Probation
        else LruType.Tiny) := by
  constructor
  · cases t <;> cases p <;> cases m <;> simp only [getIter] <;>
      (try split) <;> simp
  · rintro tn pn rfl rfl
    cases m <;> simp only [getIter]

/-- Witness for C6 at a concrete container and candidate triple: both
Tiny and Probation live, frequencies tie and newcomerWinsOnTie holds,
so the cursor selects the Probation candidate. -/
theorem C6_getIter_priority_witness :
    getIter c2Pre (some 0) (some 0) (some 1) = LruType.Probation := by
  have h := (C6_getIter_priority c2Pre (some 0) (some 0) (some 1)).2 0 0 rfl rfl
  rw [h]
  decide

/-- C9: whenever add, remove(entry) or replace returns false, the call
is a no-op: the returned state (entry flags, updateTime, in-container
bits, the three segment lists, the sketch and the window counter) is
exactly the pre-call state. -/
theorem C9_false_is_noop (s : CState) (nid oldId newId now : Nat) :
    ((add s nid now).1 = false → (add s nid now).2 = s) ∧
    ((remove s nid).1 = false → (remove s nid).2 = s) ∧
    ((replace s oldId newId).1 = false → (replace s oldId newId).2 = s) := by
  refine ⟨?_, ?_, ?_⟩
  · unfold add; split
    · intro _; rfl
    · intro h; exact absurd h (by simp)
  · unfold remove; split
    · intro h; exact absurd h (by simp)
    · intro _; rfl
  · unfold replace; split
    · intro _; rfl
    · split
      · intro _; rfl
      · intro h; exact absurd h (by simp)

/-- Witness for C9: concrete failing calls — add of an entry already in
the container, remove of an entry outside it, and replace whose new
node carries a Probation bit — all return the pre-call state. -/
theorem C9_false_is_noop_witness :
    (add c2Pre 0 0).2 = c2Pre ∧ (remove c2Pre 1).2 = c2Pre ∧
    (replace c2Pre 1 0).2 = c2Pre :=
  ⟨(C9_false_is_noop c2Pre 0 1 0 0).1 (by decide),
   (C9_false_is_noop c2Pre 1 1 0 0).2.1 (by decide),
   (C9_false_is_noop c2Pre 1 1 0 0).2.2 (by decide)⟩

end WTinyLFU

namespace WTinyLFU

theorem uFL_eq (s : CState) (nid : Nat) :
    updateFrequenciesLocked s nid =
      { s with
        accessFreq :=
          if s.windowSize + 1 = s.maxWindowSize then
            (s.accessFreq.increment (s.nodes nid).key).decayHalf
          else s.accessFreq.increment (s.nodes nid).key,
        windowSize :=
          if s.windowSize + 1 = s.maxWindowSize then (s.windowSize + 1) / 2
          else s.windowSize + 1 } := by
  simp only [updateFrequenciesLocked]
  split <;> rename_i h <;> simp [h]

theorem mGAC_eq (s : CState) :
    maybeGrowAccessCountersLocked s =
      { s with
        capacity :=
          if 2 * s.capacity > lruSize s then s.capacity
          else max (lruSize s) kDefaultCapacity,
        windowSize :=
          if 2 * s.capacity > lruSize s then s.windowSize else 0,
        maxWindowSize :=
          if 2 * s.capacity > lruSize s then s.maxWindowSize
          else max (lruSize s) kDefaultCapacity * s.config.windowToCacheSizeRatio,
        accessFreq :=
          if 2 * s.capacity > lruSize s then s.accessFreq
          else CountMinSketch.empty } := by
  simp only [maybeGrowAccessCountersLocked]
  split <;> rename_i h <;> simp [h]

theorem add_first_entry (cfg : Config) (nds : Nat → Node) (ws mws cap lrt nrt : Nat)
    (af : CountMinSketch) (nid now : Nat)
    (hcap : 0 < cap)
    (hpct : cfg.tinySizePercent ≤ 50)
    (hnin : (nds nid).inContainer = false) :
    (add ⟨cfg, nds, [], [], [], ws, mws, cap, af, lrt, nrt⟩ nid now).1 = true ∧
    (add ⟨cfg, nds, [], [], [], ws, mws, cap, af, lrt, nrt⟩ nid now).2.tiny = [] ∧
    (add ⟨cfg, nds, [], [], [], ws, mws, cap, af, lrt, nrt⟩ nid now).2.probation = [nid] ∧
    (add ⟨cfg, nds, [], [], [], ws, mws, cap, af, lrt, nrt⟩ nid now).2.main = [] ∧
    ((add ⟨cfg, nds, [], [], [], ws, mws, cap, af, lrt, nrt⟩ nid now).2.nodes nid).probation = true ∧
    ((add ⟨cfg, nds, [], [], [], ws, mws, cap, af, lrt, nrt⟩ nid now).2.nodes nid).tiny = false ∧
    ((add ⟨cfg, nds, [], [], [], ws, mws, cap, af, lrt, nrt⟩ nid now).2.nodes nid).inContainer = true := by
  have hdiv : cfg.tinySizePercent * 1 / 100 = 0 := Nat.div_eq_of_lt (by omega)
  have h2 : 1 < 2 * cap := by omega
  simp only [add, uFL_eq, mGAC_eq, updNode, lruSize, hnin,
    List.length_cons, List.length_nil, hdiv, List.getLast?_singleton,
    List.erase_cons_head, gt_iff_lt, h2, if_true, if_false,
    Bool.false_eq_true, Nat.lt_irrefl, ite_true, ite_false]
  norm_num

/-- C10: for every valid configuration (tinySizePercent at most 50),
adding the first entry to an empty container links it into Tiny and
immediately demotes it in the same call (|Tiny| = 1 exceeds
tinySizePercent * 1 / 100 = 0), so add returns true with the entry as
the sole member of Probation (ProbationBit set, TinyBit clear) and
Tiny empty. -/
theorem C10_first_add_goes_to_probation (cfg : Config) (nodes0 : Nat → Node)
    (t0 nid now : Nat)
    (hpct : cfg.tinySizePercent ≤ 50)
    (hnin : (nodes0 nid).inContainer = false) :
    (add (mkContainer cfg nodes0 t0) nid now).1 = true ∧
    (add (mkContainer cfg nodes0 t0) nid now).2.tiny = [] ∧
    (add (mkContainer cfg nodes0 t0) nid now).2.probation = [nid] ∧
    (add (mkContainer cfg nodes0 t0) nid now).2.main = [] ∧
    ((add (mkContainer cfg nodes0 t0) nid now).2.nodes nid).probation = true ∧
    ((add (mkContainer cfg nodes0 t0) nid now).2.nodes nid).tiny = false ∧
    ((add (mkContainer cfg nodes0 t0) nid now).2.nodes nid).inContainer = true := by
  exact add_first_entry cfg nodes0 0
    (max 0 kDefaultCapacity * cfg.windowToCacheSizeRatio) (max 0 kDefaultCapacity)
    cfg.lruRefreshTime
    (if cfg.mmReconfigureIntervalSecs = 0 then M32 - 1
     else t0 + cfg.mmReconfigureIntervalSecs)
    CountMinSketch.empty nid now (by norm_num [kDefaultCapacity]) hpct hnin

/-- Witness for C10 at a concrete input: configuration with
tinySizePercent = 10, first add of entry 5 at time 7. -/
theorem C10_first_add_goes_to_probation_witness :
    (add (mkContainer { tinySizePercent := 10 } defaultNodes 0) 5 7).1 = true ∧
    (add (mkContainer { tinySizePercent := 10 } defaultNodes 0) 5 7).2.probation = [5] ∧
    ((add (mkContainer { tinySizePercent := 10 } defaultNodes 0) 5 7).2.nodes 5).probation = true := by
  have h := C10_first_add_goes_to_probation { tinySizePercent := 10 } defaultNodes 0 5 7
    (by norm_num) (by decide)
  exact ⟨h.1, h.2.2.1, h.2.2.2.2.1⟩

end WTinyLFU

namespace WTinyLFU

set_option maxRecDepth 200000 in
/-- Counterexample to C1: with tinySizePercent = 10, after the 11th add
to an initially empty container the Tiny segment does NOT hold 10
entries with 1 in Probation.  add computes the Tiny cap against the
current container size (tinySizePercent * lru_.size() / 100), so Tiny's
tail is demoted on almost every insertion and Tiny holds only
floor(n / 10) entries after n adds. -/
theorem C1_counterexample :
    ¬ ((addMany c1Init 11).tiny.length = 10 ∧
       (addMany c1Init 11).probation.length = 1) := by
  decide

set_option maxRecDepth 200000 in
/-- C1 amended: with tinySizePercent = 10 and 100 distinct entries
added one at a time to an initially empty container (no recordAccess
calls), after the 11th add the Tiny segment holds exactly 1 entry and
Probation exactly 10; after the 100th add Tiny holds 10, Probation 90
and Main 0. -/
theorem C1_add_sequence_segment_sizes :
    (addMany c1Init 11).tiny.length = 1 ∧
    (addMany c1Init 11).probation.length = 10 ∧
    (addMany c1Init 11).main.length = 0 ∧
    (addMany c1Init 100).tiny.length = 10 ∧
    (addMany c1Init 100).probation.length = 90 ∧
    (addMany c1Init 100).main.length = 0 := by
  decide

set_option maxRecDepth 200000 in
/-- Counterexample to C4: with windowToCacheSizeRatio = 2 and capacity
100 (maxWindowSize = 200) starting from a freshly sized sketch, after
one frequency-generating operation for key 0 followed by 199 for other
distinct keys, getCount(0) is NOT 1: the 200th operation itself brings
windowSize to maxWindowSize, which halves windowSize and decays every
counter, so getCount(0) is already 0. -/
theorem C4_counterexample :
    ¬ ((freqMany c4Init 200).accessFreq.getCount 0 = 1) := by
  decide

set_option maxRecDepth 200000 in
/-- C4 amended: with windowToCacheSizeRatio = 2 and capacity 100 (so
maxWindowSize = 200) and the sketch freshly sized (windowSize = 0),
after one frequency-generating operation for key 0 followed by 198 for
other distinct keys, getCount(0) equals 1; the next (200th, not 201st)
operation makes windowSize reach maxWindowSize, which halves windowSize
to 100 and decays every counter by 0.5, making getCount(0) equal 0
under integer decay. -/
theorem C4_decay_on_window_boundary :
    c4Init.maxWindowSize = 200 ∧
    c4Init.windowSize = 0 ∧
    (freqMany c4Init 199).accessFreq.getCount 0 = 1 ∧
    (freqMany c4Init 199).windowSize = 199 ∧
    (freqMany c4Init 200).windowSize = 100 ∧
    (freqMany c4Init 200).accessFreq.getCount 0 = 0 := by
  decide

end WTinyLFU

namespace WTinyLFU

/-- Counterexample to C2: in a container with tryLockUpdate enabled
holding entry 0 with a clear AccessedBit, a recordAccess whose lock
acquisition fails returns false but does NOT leave the entry's flags
intact: the AccessedBit is set before the lock is attempted and stays
set. -/
theorem C2_counterexample :
    (c2Pre.nodes 0).accessed = false ∧
    (recordAccess c2Pre 0 AccessMode.read 5 false).1 = false ∧
    ((recordAccess c2Pre 0 AccessMode.read 5 false).2.nodes 0).accessed = true := by
  decide

/-- C2 amended: with tryLockUpdate enabled, a recordAccess call that
reaches the lock attempt and fails to acquire the lock returns false
and performs no update other than having set the entry's AccessedBit
(which it sets before attempting the lock): the three segment lists,
the sketch, the window counter, the refresh and reconfigure times, all
other entries, and the entry's remaining fields (key, TinyBit,
ProbationBit, in-container bit, updateTime) are unchanged, and the
entry's AccessedBit is set after the call. -/
theorem C2_trylock_failure_sets_only_accessed (s : CState) (nid : Nat)
    (mode : AccessMode) (now : Nat)
    (htry : s.config.tryLockUpdate = true)
    (hmode : ¬ ((mode = AccessMode.write ∧ ¬ s.config.updateOnWrite = true) ∨
                (mode = AccessMode.read ∧ ¬ s.config.updateOnRead = true)))
    (hin : (s.nodes nid).inContainer = true)
    (hguard : now ≥ ((s.nodes nid).updateTime + s.lruRefreshTime) % M32 ∨
              (s.nodes nid).accessed = false) :
    (recordAccess s nid mode now false).1 = false ∧
    (recordAccess s nid mode now false).2.tiny = s.tiny ∧
    (recordAccess s nid mode now false).2.probation = s.probation ∧
    (recordAccess s nid mode now false).2.main = s.main ∧
    (recordAccess s nid mode now false).2.windowSize = s.windowSize ∧
    (recordAccess s nid mode now false).2.accessFreq = s.accessFreq ∧
    (recordAccess s nid mode now false).2.lruRefreshTime = s.lruRefreshTime ∧
    (recordAccess s nid mode now false).2.nextReconfigureTime = s.nextReconfigureTime ∧
    ((recordAccess s nid mode now false).2.nodes nid).key = (s.nodes nid).key ∧
    ((recordAccess s nid mode now false).2.nodes nid).tiny = (s.nodes nid).tiny ∧
    ((recordAccess s nid mode now false).2.nodes nid).probation = (s.nodes nid).probation ∧
    ((recordAccess s nid mode now false).2.nodes nid).inContainer = (s.nodes nid).inContainer ∧
    ((recordAccess s nid mode now false).2.nodes nid).updateTime = (s.nodes nid).updateTime ∧
    ((recordAccess s nid mode now false).2.nodes nid).accessed = true ∧
    (∀ j, j ≠ nid → (recordAccess s nid mode now false).2.nodes j = s.nodes j) := by
  have hguard2 : now ≥ ((s.nodes nid).updateTime + s.lruRefreshTime) % M32 ∨
      ¬ (s.nodes nid).accessed = true := by
    rcases hguard with h | h
    · exact Or.inl h
    · exact Or.inr (by simp [h])
  simp only [recordAccess]
  rw [if_neg hmode, if_pos ⟨hin, hguard2⟩]
  by_cases hacc : (s.nodes nid).accessed = true
  · rw [if_neg (not_not_intro hacc), if_pos ⟨htry, by simp⟩]
    refine ⟨rfl, rfl, rfl, rfl, rfl, rfl, rfl, rfl, rfl, rfl, rfl, rfl, rfl,
      hacc, fun j _ => rfl⟩
  · rw [if_pos hacc,
      if_pos (⟨htry, by simp⟩ :
        (updNode s nid fun n => { n with accessed := true
          }).config.tryLockUpdate = true ∧ ¬ false = true)]
    refine ⟨rfl, rfl, rfl, rfl, rfl, rfl, rfl, rfl, ?_, ?_, ?_, ?_, ?_, ?_, ?_⟩
    · simp [updNode]
    · simp [updNode]
    · simp [updNode]
    · simp [updNode]
    · simp [updNode]
    · simp [updNode]
    · intro j hj
      simp [updNode, hj]

/-- Witness for the amended C2 at a concrete input: the try-lock
container c2Pre, entry 0, read mode, a failed lock acquisition. -/
theorem C2_trylock_failure_sets_only_accessed_witness :
    (recordAccess c2Pre 0 AccessMode.read 5 false).1 = false ∧
    (recordAccess c2Pre 0 AccessMode.read 5 false).2.probation = c2Pre.probation ∧
    ((recordAccess c2Pre 0 AccessMode.read 5 false).2.nodes 0).accessed = true := by
  have h := C2_trylock_failure_sets_only_accessed c2Pre 0 AccessMode.read 5
    (by decide) (by decide) (by decide) (Or.inr (by decide))
  exact ⟨h.1, h.2.2.1, h.2.2.2.2.2.2.2.2.2.2.2.2.2.1⟩

/-- Counterexample to C7: entry 0 of c7Pre has its AccessedBit set and
updateTime + lruRefreshTime = 6442450944, which exceeds the current
time 4000000000 — yet recordAccess moves it (returns true and stamps a
new updateTime), because the code compares against the sum reduced
modulo 2^32 (2147483648). -/
theorem C7_counterexample :
    (c7Pre.nodes 0).accessed = true ∧
    4000000000 < (c7Pre.nodes 0).updateTime + c7Pre.lruRefreshTime ∧
    (recordAccess c7Pre 0 AccessMode.read 4000000000 true).1 = true ∧
    ((recordAccess c7Pre 0 AccessMode.read 4000000000 true).2.nodes 0).updateTime =
      4000000000 := by
  decide

/-- C7 amended: for every entry whose AccessedBit is already set and
whose updateTime + lruRefreshTime exceeds the current time without
overflowing 32 bits (the sum is below 2^32, matching the unsigned
32-bit comparison the code performs), recordAccess in any mode returns
false and leaves the entire container state — the entry's segment,
list position, flags and updateTime included — unchanged. -/
theorem C7_fresh_accessed_entry_not_moved (s : CState) (nid : Nat)
    (mode : AccessMode) (now : Nat) (lockAvail : Bool)
    (hacc : (s.nodes nid).accessed = true)
    (hlt : now < (s.nodes nid).updateTime + s.lruRefreshTime)
    (hnof : (s.nodes nid).updateTime + s.lruRefreshTime < M32) :
    recordAccess s nid mode now lockAvail = (false, s) := by
  unfold recordAccess
  split
  · rfl
  · rw [if_neg]
    rintro ⟨-, hge | hna⟩
    · rw [Nat.mod_eq_of_lt hnof] at hge
      omega
    · exact hna hacc

/-- Witness for the amended C7 at a concrete input: entry 0 of
c7SmallPre was stamped at time 10 with lruRefreshTime 60 and has its
AccessedBit set; recordAccess at time 20 is a no-op returning false. -/
theorem C7_fresh_accessed_entry_not_moved_witness :
    recordAccess c7SmallPre 0 AccessMode.read 20 true = (false, c7SmallPre) :=
  C7_fresh_accessed_entry_not_moved c7SmallPre 0 AccessMode.read 20 true
    (by decide) (by decide) (by decide)

end WTinyLFU

namespace WTinyLFU

theorem mainBound_updNode (s : CState) (i : Nat) (f : Node → Node) :
    mainBound (updNode s i f) ↔ mainBound s := Iff.rfl

theorem mainBound_uFL (s : CState) (nid : Nat) :
    mainBound (updateFrequenciesLocked s nid) ↔ mainBound s := by
  unfold mainBound
  rw [uFL_main, uFL_probation, uFL_config]

theorem mainBound_reconf (s : CState) (now : Nat) :
    mainBound (reconfigureLocked s now) ↔ mainBound s := by
  unfold mainBound
  rw [reconf_main, reconf_probation, reconf_config]

theorem segList_updNode (s : CState) (i : Nat) (f : Node → Node) (t : LruType) :
    segList (updNode s i f) t = segList s t := by
  cases t <;> rfl

theorem segList_reconf (s : CState) (now : Nat) (t : LruType) :
    segList (reconfigureLocked s now) t = segList s t := by
  cases t <;> simp [segList, reconf_tiny, reconf_probation, reconf_main]

theorem recordAccessLocked_mainBound (s : CState) (nid now : Nat)
    (hmem : nid ∈ segList s (getLruType (s.nodes nid)))
    (hbound : mainBound s) :
    mainBound (recordAccessLocked s nid now).2 := by
  unfold recordAccessLocked
  split
  · exact hbound
  · cases hlt : getLruType (s.nodes nid) with
    | Main =>
      rw [hlt] at hmem
      simp only [segList] at hmem
      dsimp only
      rw [mainBound_uFL, mainBound_updNode, if_neg (by decide)]
      unfold mainBound
      dsimp only
      rw [List.length_cons, List.length_erase_of_mem hmem]
      have hpos := List.length_pos_of_mem hmem
      have h1 : s.main.length - 1 + 1 = s.main.length := by omega
      rw [h1]
      exact hbound
    | Tiny =>
      dsimp only
      rw [mainBound_uFL, mainBound_updNode, if_neg (by decide)]
      exact hbound
    | Probation =>
      rw [hlt] at hmem
      simp only [segList] at hmem
      have hpos := List.length_pos_of_mem hmem
      dsimp only
      rw [mainBound_uFL, mainBound_updNode, if_pos rfl]
      split
      · -- frequency exceeds protectionFreq: promotion happened
        simp only [updNode_main, updNode_probation, updNode_config,
          List.erase_cons_head]
        split
        · -- Main exceeded the bound: one tail demotion
          split
          · rename_i hg
            rw [List.getLast?_eq_none_iff] at hg
            exact absurd hg (by simp)
          · rename_i mainTail hg
            have hmt : mainTail ∈ nid :: s.main := by
              obtain ⟨hne, heq⟩ := List.mem_getLast?_eq_getLast
                (show mainTail ∈ (nid :: s.main).getLast? by rw [hg]; rfl)
              exact heq ▸ List.getLast_mem hne
            rw [mainBound_updNode]
            unfold mainBound
            dsimp only
            rw [List.length_erase_of_mem hmt, List.length_cons,
              List.length_append, List.length_erase_of_mem hmem]
            have e1 : s.probation.length - 1 + [mainTail].length =
                s.probation.length := by simp; omega
            rw [e1, Nat.add_sub_cancel]
            exact hbound
        · -- Main within the bound after promotion
          rename_i hle
          rw [Nat.not_lt] at hle
          unfold mainBound
          rw [updNode_main, updNode_probation, updNode_config]
          dsimp only
          rw [Nat.add_comm ((nid :: s.main).length) ((s.probation.erase nid).length)]
          exact hle
      · -- no promotion: only a move to head of Probation
        unfold mainBound
        dsimp only
        rw [List.length_cons, List.length_erase_of_mem hmem]
        have h1 : s.probation.length - 1 + 1 = s.probation.length := by omega
        rw [h1]
        exact hbound

/-- Counterexample to C3: a container state reached from empty by
public operations only (c3Pre: five adds, four promoting accesses,
three removes) on which a recordAccess returns true yet leaves
|Main| = 2 above protectionSegmentSizePct * (|Main| + |Probation|) /
100 = 1.  The Main-cap enforcement is a single conditional demotion
(an if, not a while) and runs only on the Probation-to-Main promotion
path, so it does not restore the bound from states already violating
it. -/
theorem C3_counterexample :
    (recordAccess c3Pre 0 AccessMode.read 0 true).1 = true ∧
    ¬ mainBound (recordAccess c3Pre 0 AccessMode.read 0 true).2 := by
  decide

/-- C3 amended: recordAccess preserves the Main-cap bound rather than
re-establishing it: for every state in which the accessed entry lies in
the segment list its flags indicate and |Main| ≤
protectionSegmentSizePct * (|Main| + |Probation|) / 100 holds before
the call, the bound still holds after the call (whatever the return
value); the enforcement demotes at most one Main-tail entry per call
and cannot repair states that already violate the bound. -/
theorem C3_main_bound_preserved (s : CState) (nid : Nat) (mode : AccessMode)
    (now : Nat) (lockAvail : Bool)
    (hmem : nid ∈ segList s (getLruType (s.nodes nid)))
    (hbound : mainBound s) :
    mainBound (recordAccess s nid mode now lockAvail).2 := by
  unfold recordAccess
  split
  · exact hbound
  · split
    · dsimp only
      split
      · -- accessed bit was clear: it is set before the lock attempt
        split
        · exact hbound
        · apply recordAccessLocked_mainBound
          · rw [segList_reconf, reconf_nodes, segList_updNode,
              updNode_nodes_self]
            exact hmem
          · rw [mainBound_reconf]
            exact hbound
      · -- accessed bit already set
        split
        · exact hbound
        · apply recordAccessLocked_mainBound
          · rw [segList_reconf, reconf_nodes]
            exact hmem
          · rw [mainBound_reconf]
            exact hbound
    · exact hbound

/-- Witness for the amended C3 at a concrete input: the single-entry
container c2Pre satisfies the bound, entry 0 lies in its Probation
list, and the bound still holds after a recordAccess that promotes
nothing. -/
theorem C3_main_bound_preserved_witness :
    mainBound (recordAccess c2Pre 0 AccessMode.read 5 true).2 :=
  C3_main_bound_preserved c2Pre 0 AccessMode.read 5 true (by decide) (by decide)

end WTinyLFU

namespace WTinyLFU

/-- C8: replace(old, new) fails (returning false and leaving the state
unchanged) whenever the new node carries a Tiny or Probation bit, the
old node is not in the container, or the new node already is; a
successful replace returns true and puts the new node in the old
node's segment at the old node's exact list position (the segment list
equals the old list with old substituted by new pointwise, so the
predecessor and successor are identical), with updateTime equal to the
old node's pre-call updateTime and the AccessedBit copied from the old
node, while the old node's segment flags and in-container bit are
cleared.  The success part assumes the old node does not carry both
segment bits at once, which no reachable state violates. -/
theorem C8_replace_spec (s : CState) (o n : Nat) :
    ((((s.nodes n).tiny = true ∨ (s.nodes n).probation = true) ∨
       (s.nodes o).inContainer = false ∨ (s.nodes n).inContainer = true) →
      replace s o n = (false, s)) ∧
    ((s.nodes n).tiny = false → (s.nodes n).probation = false →
     (s.nodes o).inContainer = true → (s.nodes n).inContainer = false →
     ¬ ((s.nodes o).tiny = true ∧ (s.nodes o).probation = true) →
      (replace s o n).1 = true ∧
      getLruType ((replace s o n).2.nodes n) = getLruType (s.nodes o) ∧
      (∀ t, segList (replace s o n).2 t =
        if t = getLruType (s.nodes o) then
          (segList s t).map (fun x => if x = o then n else x)
        else segList s t) ∧
      ((replace s o n).2.nodes n).updateTime = (s.nodes o).updateTime ∧
      ((replace s o n).2.nodes n).accessed = (s.nodes o).accessed ∧
      ((replace s o n).2.nodes o).tiny = false ∧
      ((replace s o n).2.nodes o).probation = false ∧
      ((replace s o n).2.nodes o).inContainer = false) := by
  constructor
  · intro h
    unfold replace
    by_cases h1 : (s.nodes n).tiny = true ∨ (s.nodes n).probation = true
    · rw [if_pos h1]
    · rw [if_neg h1, if_pos ?_]
      rcases h with (h | h) | h | h
      · exact absurd (Or.inl h) h1
      · exact absurd (Or.inr h) h1
      · exact Or.inl (by simp [h])
      · exact Or.inr h
  · intro hnt hnp hoin hnin hflags
    have hne : ¬ n = o := by
      intro he
      rw [he, hoin] at hnin
      exact absurd hnin (by simp)
    have hne2 : ¬ o = n := fun he => hne he.symm
    unfold replace
    rw [if_neg (by simp [hnt, hnp]), if_neg (by simp [hoin, hnin])]
    by_cases hot : (s.nodes o).tiny = true
    · have hop : (s.nodes o).probation = false := by
        rcases Bool.eq_false_or_eq_true (s.nodes o).probation with h | h
        · exact absurd ⟨hot, h⟩ hflags
        · exact h
      have hlt : getLruType (s.nodes o) = LruType.Tiny := by
        simp [getLruType, hot]
      dsimp only
      rw [if_pos hot]
      split <;> rename_i hacc <;> simp only [updNode, hne, hne2,
          if_true, if_false, ite_true, ite_false, if_neg hne,
          if_neg hne2] at hacc <;>
        refine ⟨rfl, ?_, ?_, ?_, ?_, ?_, ?_, ?_⟩
      · simp [updNode, hne, hne2, getLruType, hot]
      · intro t
        cases t <;> simp [segList, updNode, hlt]
      · simp [updNode, hne, hne2]
      · simp [updNode, hne, hne2, hacc]
      · simp [updNode, hne, hne2]
      · simp [updNode, hne, hne2, hop]
      · simp [updNode, hne, hne2]
      · simp [updNode, hne, hne2, getLruType, hot]
      · intro t
        cases t <;> simp [segList, updNode, hlt]
      · simp [updNode, hne, hne2]
      · simp [updNode, hne, hne2, (by simpa using hacc : (s.nodes o).accessed = false)]
      · simp [updNode, hne, hne2]
      · simp [updNode, hne, hne2, hop]
      · simp [updNode, hne, hne2]
    · have hot2 : (s.nodes o).tiny = false := by simpa using hot
      by_cases hop : (s.nodes o).probation = true
      · have hlt : getLruType (s.nodes o) = LruType.Probation := by
          simp [getLruType, hot2, hop]
        dsimp only
        rw [if_neg hot, if_pos hop]
        split <;> rename_i hacc <;> simp only [updNode, hne, hne2,
            if_true, if_false, ite_true, ite_false, if_neg hne,
            if_neg hne2] at hacc <;>
          refine ⟨rfl, ?_, ?_, ?_, ?_, ?_, ?_, ?_⟩
        · simp [updNode, hne, hne2, getLruType, hnt, hot2, hop]
        · intro t
          cases t <;> simp [segList, updNode, hlt]
        · simp [updNode, hne, hne2]
        · simp [updNode, hne, hne2, hacc]
        · simp [updNode, hne, hne2, hot2]
        · simp [updNode, hne, hne2]
        · simp [updNode, hne, hne2]
        · simp [updNode, hne, hne2, getLruType, hnt, hot2, hop]
        · intro t
          cases t <;> simp [segList, updNode, hlt]
        · simp [updNode, hne, hne2]
        · simp [updNode, hne, hne2, (by simpa using hacc : (s.nodes o).accessed = false)]
        · simp [updNode, hne, hne2, hot2]
        · simp [updNode, hne, hne2]
        · simp [updNode, hne, hne2]
      · have hop2 : (s.nodes o).probation = false := by simpa using hop
        have hlt : getLruType (s.nodes o) = LruType.Main := by
          simp [getLruType, hot2, hop2]
        dsimp only
        rw [if_neg hot, if_neg hop]
        split <;> rename_i hacc <;> simp only [updNode, hne, hne2,
            if_true, if_false, ite_true, ite_false, if_neg hne,
            if_neg hne2] at hacc <;>
          refine ⟨rfl, ?_, ?_, ?_, ?_, ?_, ?_, ?_⟩
        · simp [updNode, hne, hne2, getLruType, hnt, hnp, hot2, hop2]
        · intro t
          cases t <;> simp [segList, updNode, hlt]
        · simp [updNode, hne, hne2]
        · simp [updNode, hne, hne2, hacc]
        · simp [updNode, hne, hne2, hot2]
        · simp [updNode, hne, hne2, hop2]
        · simp [updNode, hne, hne2]
        · simp [updNode, hne, hne2, getLruType, hnt, hnp, hot2, hop2]
        · intro t
          cases t <;> simp [segList, updNode, hlt]
        · simp [updNode, hne, hne2]
        · simp [updNode, hne, hne2, (by simpa using hacc : (s.nodes o).accessed = false)]
        · simp [updNode, hne, hne2, hot2]
        · simp [updNode, hne, hne2, hop2]
        · simp [updNode, hne, hne2]

/-- Witness for C8 at concrete inputs: replacing in-container entry 1
of c8Pre by the outside entry 9 succeeds and transfers position, time
and flags; replacing the outside entry 9 by the Probation entry 1
fails and is a no-op. -/
theorem C8_replace_spec_witness :
    (replace c8Pre 1 9).1 = true ∧
    getLruType ((replace c8Pre 1 9).2.nodes 9) = getLruType (c8Pre.nodes 1) ∧
    ((replace c8Pre 1 9).2.nodes 9).updateTime = (c8Pre.nodes 1).updateTime ∧
    ((replace c8Pre 1 9).2.nodes 1).inContainer = false ∧
    replace c8Pre 9 1 = (false, c8Pre) := by
  have h := (C8_replace_spec c8Pre 1 9).2 (by decide) (by decide) (by decide)
    (by decide) (by decide)
  have hf := (C8_replace_spec c8Pre 9 1).1 (Or.inl (Or.inr (by decide)))
  exact ⟨h.1, h.2.1, h.2.2.2.1, h.2.2.2.2.2.2.2, hf⟩

end WTinyLFU
